import Mathlib

/-!
Shallow embedding of `cmd/soft/migrate_config.go` (soft-serve's
`migrate-config` command) and proofs about the claims of its
specification.

Conventions of the embedding:
* Go strings are Lean `String`s; per-character library helpers
  (`strings.ToLower`, `strings.ReplaceAll` with one-character pattern)
  are modelled as character maps over `String.data`.
* `ssh.PublicKey` values are opaque handles modelled as `Nat`;
  the external functions `backend.ParseAuthorizedKey` and
  `backend.MarshalAuthorizedKey` become fields of an environment record.
* A Go `map[string]ssh.PublicKey` is modelled as an association list
  with insert-or-overwrite semantics (`mapInsert`).
* Fallible backend calls are modelled by oracle fields returning
  `Option String` (`some msg` = the call fails with message `msg`).
* Side effects (backend calls, log lines) are reified as event lists;
  an early `return err` in Go becomes `Except.error`.
-/

namespace MigrateConfig

/-- Legacy `User` record (`migrate_config.go`, type `User`). -/
structure User where
  name : String
  admin : Bool
  publicKeys : List String
  collabRepos : List String
deriving Repr, DecidableEq

/-- Legacy `RepoConfig` record (`migrate_config.go`, type `RepoConfig`). -/
structure RepoConfig where
  name : String
  repo : String
  note : String
  private_ : Bool
  readme : String
  collabs : List String
deriving Repr, DecidableEq

/-- Legacy `Config` record (`migrate_config.go`, type `Config`). -/
structure Config where
  name : String
  host : String
  port : Int
  anonAccess : String
  allowKeyless : Bool
  users : List User
  repos : List RepoConfig
deriving Repr, DecidableEq

/-- `unicode.ToLower` restricted to ASCII, as applied rune-wise by Go's
`strings.ToLower`: an ASCII uppercase letter is shifted to lowercase,
every other character is unchanged. -/
def toLowerChar (c : Char) : Char :=
  if 'A' ≤ c ∧ c ≤ 'Z' then Char.ofNat (c.toNat + 32) else c

/-- Go `strings.ToLower`, modelled character-wise (ASCII fragment). -/
def goToLower (s : String) : String :=
  ⟨s.data.map toLowerChar⟩

/-- Go `strings.ReplaceAll s old new` for a one-character pattern `old`
and one-character replacement `new`: every occurrence of `old` is
replaced by `new`. -/
def replaceAllChar (s : String) (old new : Char) : String :=
  ⟨s.data.map (fun c => if c = old then new else c)⟩

/-- Username normalization of `migrateConfig.RunE` (lines 198-199):
`strings.ToLower` then `strings.ReplaceAll(username, " ", "-")`. -/
def normalizeUsername (s : String) : String :=
  replaceAllChar (goToLower s) ' ' '-'

/-- Environment for the user-creation loop: the external key functions
and the fallible backend calls it performs. -/
structure UserEnv where
  parseKey : String → Option Nat
  marshal : Nat → String
  createUserErr : String → Option String
  addCollabErr : String → String → Option String

/-- Insert-or-overwrite on an association list, modelling Go's
`keys[ak] = pk` on a `map[string]ssh.PublicKey`. -/
def mapInsert (m : List (String × Nat)) (k : String) (v : Nat) :
    List (String × Nat) :=
  if (m.map Prod.fst).contains k then
    m.map (fun p => if p.1 = k then (k, v) else p)
  else
    m ++ [(k, v)]

/-- The key-collection loop of `migrateConfig.RunE` (lines 183-191):
each raw key string is parsed with `backend.ParseAuthorizedKey`; a
parse failure skips that key (`continue`); a parsed key is stored in
the map under its `backend.MarshalAuthorizedKey` canonical form. -/
def collectKeys (env : UserEnv) (raws : List String) :
    List (String × Nat) :=
  raws.foldl
    (fun m key =>
      match env.parseKey key with
      | none => m
      | some pk => mapInsert m (env.marshal pk) pk)
    []

/-- The `pubkeys` slice of `migrateConfig.RunE` (lines 193-196): the
values of the deduplication map. -/
def pubkeysOf (env : UserEnv) (raws : List String) : List Nat :=
  (collectKeys env raws).map Prod.snd

/-- Observable events of the user-creation loop: backend calls made and
error log lines emitted. -/
inductive UEvent where
  | createUser (username : String) (admin : Bool) (pubkeys : List Nat)
  | createUserFailed (msg : String)
  | addCollab (repo : String) (username : String)
  | addCollabFailed (repo : String) (msg : String)
deriving Repr, DecidableEq

/-- Body of the per-user iteration of `migrateConfig.RunE`
(lines 182-213): build the deduplicated key list, normalize the
username, call `CreateUser` (logging a failure), then — with no early
exit — call `AddCollaborator` for every declared collab repo (logging
each failure). -/
def processUser (env : UserEnv) (u : User) : List UEvent :=
  let pubkeys := pubkeysOf env u.publicKeys
  let username := normalizeUsername u.name
  [UEvent.createUser username u.admin pubkeys] ++
  (match env.createUserErr username with
   | some e => [UEvent.createUserFailed e]
   | none => []) ++
  u.collabRepos.flatMap (fun repo =>
    [UEvent.addCollab repo username] ++
    match env.addCollabErr repo username with
    | some e => [UEvent.addCollabFailed repo e]
    | none => [])

/-- One entry of `os.ReadDir(reposPath)` as the repo-copy loop sees it:
its base name and whether it is a directory. -/
structure DirEntry where
  name : String
  isDir : Bool
deriving Repr, DecidableEq

/-- Environment for the repo-copy loop of `migrateConfig.RunE`
(lines 132-155): the `isGitDir` verdict per entry name, whether
`os.MkdirAll` of the destination repos directory succeeds, and the
outcomes of `copyDir` and `sb.CreateRepository` per entry name. -/
structure RepoEnv where
  isGitDirAt : String → Bool
  mkdirOk : Bool
  copyErr : String → Option String
  createRepoErr : String → Option String

/-- Observable events of the repo-copy loop: the `Copying repo` log
line, the `CreateRepository` backend call, and its logged failure. -/
inductive REvent where
  | copying (name : String)
  | createRepoCall (name : String)
  | createRepoFailed (msg : String)
deriving Repr, DecidableEq

/-- Body of one iteration of the repo-copy loop (lines 132-155):
skip non-directories and non-git directories; log `Copying repo`;
a `MkdirAll` failure or a `copyDir` failure returns an error
(aborting `RunE`); a `CreateRepository` failure is only logged. -/
def importRepo (env : RepoEnv) (d : DirEntry) :
    Except String (List REvent) :=
  if d.isDir = false then .ok []
  else if env.isGitDirAt d.name = false then .ok []
  else if env.mkdirOk = false then
    .error "failed to create repos directory"
  else
    match env.copyErr d.name with
    | some e => .error ("failed to copy repo: " ++ e)
    | none =>
      .ok ([REvent.copying d.name, REvent.createRepoCall d.name] ++
        match env.createRepoErr d.name with
        | some e => [REvent.createRepoFailed e]
        | none => [])

/-- The repo-copy loop over all directory entries: an `Except.error`
from one iteration is Go's `return fmt.Errorf(...)` and ends the
whole loop (and `RunE`). -/
def importRepos (env : RepoEnv) : List DirEntry → Except String (List REvent)
  | [] => .ok []
  | d :: rest =>
    match importRepo env d with
    | .error e => .error e
    | .ok evs =>
      match importRepos env rest with
      | .error e => .error e
      | .ok evs2 => .ok (evs ++ evs2)

/-- A tree entry of the config repository head tree: `te.Contents()`
may fail, which `none` models. -/
structure TreeEntryT where
  contents : Option String
deriving Repr, DecidableEq

/-- The head tree of the legacy config repository: `tree.TreeEntry name`
returns an entry or fails (`none`). -/
structure LTree where
  treeEntry : String → Option TreeEntryT

/-- Entry selection of `migrateConfig.RunE` (lines 80-88): try
`config.yaml` first; on failure try `config.json` and set `isJson`;
if both fail, return an error. The `Bool` is the `isJson` flag. -/
def findConfigEntry (t : LTree) : Except String (TreeEntryT × Bool) :=
  match t.treeEntry "config.yaml" with
  | some te => .ok (te, false)
  | none =>
    match t.treeEntry "config.json" with
    | some te => .ok (te, true)
    | none => .error "failed to get config file"

/-- Reading and decoding the legacy config (lines 80-104): select the
entry, fetch its contents (fatal on failure), and decode with the
JSON decoder when `isJson` is set, the YAML decoder otherwise.  The
two decoders are oracles since deserialization is external. -/
def readLegacyConfig (yamlDec jsonDec : String → Option Config)
    (t : LTree) : Except String Config :=
  match findConfigEntry t with
  | .error e => .error e
  | .ok (te, isJson) =>
    match te.contents with
    | none => .error "failed to get config contents"
    | some cc =>
      if isJson then
        match jsonDec cc with
        | none => .error "failed to unmarshal config"
        | some c => .ok c
      else
        match yamlDec cc with
        | none => .error "failed to unmarshal config"
        | some c => .ok c

/-- A filesystem as `isGitDir` observes it: `stat p = some b` means
`os.Stat p` succeeds and `b` tells whether the path is a directory;
`none` means `os.Stat` fails. -/
structure StatFS where
  stat : String → Option Bool

/-- `isGitDir` (lines 224-242): true iff `path/objects` stats as a
directory and `path/HEAD` stats as a non-directory. -/
def isGitDir (fs : StatFS) (path : String) : Bool :=
  match fs.stat (path ++ "/objects") with
  | none => false
  | some isDir =>
    if isDir = false then false
    else
      match fs.stat (path ++ "/HEAD") with
      | none => false
      | some isDir2 => if isDir2 = true then false else true

/-- A source filesystem node as `copyDir`/`copyFile` observe it.
For a file, `ok` says whether `copyFile` of that file succeeds.
For a directory, `statOk` is the outcome of `os.Stat src`, `mkdirOk`
of `os.MkdirAll dst mode`, `readOk` of `os.ReadDir src`; `children`
are its named entries in listing order. -/
inductive FNode where
  | file (ok : Bool)
  | dir (statOk mkdirOk readOk : Bool) (children : List (String × FNode))
deriving Repr

mutual

/-- `copyDir` (lines 271-302): fail on top-level stat, destination
mkdir, or top-level listing failure; otherwise walk the children,
collect printed error lines (`fmt.Println(err)`), and return `nil`.
Calling it where a file stands models `os.ReadDir` failing there. -/
def copyDir : FNode → Except String (List String)
  | .file _ => .error "readdir failed: not a directory"
  | .dir statOk mkdirOk readOk children =>
    if statOk = false then .error "stat failed"
    else if mkdirOk = false then .error "mkdir failed"
    else if readOk = false then .error "readdir failed"
    else .ok (copyEntries children)
termination_by n => (sizeOf n, 0)

/-- The `for _, fd := range fds` walk of `copyDir`: every child is
processed, failures only accumulate printed lines. -/
def copyEntries : List (String × FNode) → List String
  | [] => []
  | (n, c) :: rest => copyEntry n c ++ copyEntries rest
termination_by l => (sizeOf l, 0)

/-- One child of the walk: a file child prints a line when `copyFile`
fails; a directory child recurses, printing the recursive error if
any; in both cases the walk continues. -/
def copyEntry : String → FNode → List String
  | n, .file ok => if ok then [] else ["failed to copy file " ++ n]
  | _, .dir statOk mkdirOk readOk children =>
    match copyDir (.dir statOk mkdirOk readOk children) with
    | .error e => [e]
    | .ok log => log
termination_by _ c => (sizeOf c, 1)

end

/-- Decimal digit characters of a natural number, most significant
first, by repeated division as in Go's `strconv` integer formatting
(which `fmt`'s `%d` verb uses). -/
def natChars (n : Nat) : List Char :=
  if n < 10 then [Char.ofNat (48 + n)]
  else natChars (n / 10) ++ [Char.ofNat (48 + n % 10)]
decreasing_by
  exact Nat.div_lt_self (by omega) (by omega)

/-- `%d` rendering of a Go `int`: a minus sign followed by the digits
of the magnitude when negative, plain digits otherwise. -/
def intChars (i : Int) : List Char :=
  if i < 0 then '-' :: natChars i.natAbs else natChars i.toNat

/-- An argument to `fmt.Sprintf`, either a string for `%s` or an
integer for `%d`. -/
inductive GoArg where
  | s (v : String)
  | d (v : Int)

/-- Character-level model of `fmt.Sprintf` restricted to the `%s` and
`%d` verbs: scan the format, substituting the next argument at each
verb and copying every other character. -/
def sprintfChars : List Char → List GoArg → List Char
  | [], _ => []
  | '%' :: 's' :: rest, GoArg.s v :: args => v.data ++ sprintfChars rest args
  | '%' :: 'd' :: rest, GoArg.d v :: args => intChars v ++ sprintfChars rest args
  | c :: rest, args => c :: sprintfChars rest args

/-- `fmt.Sprintf` on strings (model, `%s`/`%d` fragment). -/
def goSprintf (format : String) (args : List GoArg) : String :=
  ⟨sprintfChars format.data args⟩

/-- The public SSH URL of `migrateConfig.RunE` line 110:
`fmt.Sprintf("ssh://%s:%d", ocfg.Host, ocfg.Port)`. -/
def publicURL (host : String) (port : Int) : String :=
  goSprintf "ssh://%s:%d" [GoArg.s host, GoArg.d port]

/-- Decimal digit characters per the mathematical digit expansion
(`Nat.digits`), most significant first; the spec-side notion of
`decimal(n)` for a natural number. -/
def specDigits (n : Nat) : List Char :=
  if n = 0 then ['0']
  else ((Nat.digits 10 n).map (fun d => Char.ofNat (48 + d))).reverse

/-- Spec-side `decimal(i)` for an integer: sign then digits. -/
def specDecimal (i : Int) : String :=
  if i < 0 then ⟨'-' :: specDigits i.natAbs⟩ else ⟨specDigits i.toNat⟩

/-- Modelled from the spec: `backend.ParseAccessLevel` is outside this
file's source; per the spec it parses the legacy `anon-access` policy
string into an access level, yielding a negative sentinel when the
string names no valid level. -/
def ParseAccessLevel (s : String) : Int :=
  if s = "no-access" then 0
  else if s = "read-only" then 1
  else if s = "read-write" then 2
  else if s = "admin-access" then 3
  else -1

/-- Environment for the server-settings step: outcomes of the
`SetAllowKeyless` and `SetAnonAccess` backend calls. -/
structure SettingsEnv where
  setAllowKeylessOk : Bool
  setAnonAccessErr : Int → Option String

/-- Observable events of the server-settings step (lines 113-122). -/
inductive SEvent where
  | allowKeylessFailed
  | setAnonAccessCall (level : Int)
  | anonAccessFailed (msg : String)
deriving Repr, DecidableEq

/-- Server-settings step of `migrateConfig.RunE` (lines 113-122):
`SetAllowKeyless` failure is logged; then
`anon := backend.ParseAccessLevel(ocfg.AnonAccess)` and only when
`anon >= 0` is `sb.SetAnonAccess(anon)` called, its failure logged. -/
def serverSettings (env : SettingsEnv) (anonAccess : String) : List SEvent :=
  (if env.setAllowKeylessOk = false then [SEvent.allowKeylessFailed] else []) ++
  (let anon := ParseAccessLevel anonAccess
   if 0 ≤ anon then
     SEvent.setAnonAccessCall anon ::
       (match env.setAnonAccessErr anon with
        | some e => [SEvent.anonAccessFailed e]
        | none => [])
   else [])

/-! ### Helper lemmas -/

lemma toNat_ofNat_of_valid (n : Nat) (h : n.isValidChar) :
    (Char.ofNat n).toNat = n := by
  simp only [Char.ofNat, dif_pos h]
  simp [Char.ofNatAux, Char.toNat, UInt32.ofNat', UInt32.toNat]

lemma le_char_iff_toNat (a c : Char) : a ≤ c ↔ a.toNat ≤ c.toNat := by
  rfl

/-- The character-level form of the claim's description of username
normalization: an ASCII uppercase letter is lowercased, a space
becomes a hyphen, everything else is unchanged. -/
def claimChar (c : Char) : Char :=
  if 'A' ≤ c ∧ c ≤ 'Z' then Char.ofNat (c.toNat + 32)
  else if c = ' ' then '-' else c

/-- The claim's description of the whole transformation. -/
def claimNormalize (s : String) : String :=
  ⟨s.data.map claimChar⟩

lemma replace_after_lower (c : Char) :
    (fun c => if c = ' ' then '-' else c) (toLowerChar c) = claimChar c := by
  by_cases hU : 'A' ≤ c ∧ c ≤ 'Z'
  · have h65 : 65 ≤ c.toNat := by
      have := hU.1
      rw [le_char_iff_toNat] at this
      simpa using this
    have h90 : c.toNat ≤ 90 := by
      have := hU.2
      rw [le_char_iff_toNat] at this
      simpa using this
    have hv : (c.toNat + 32).isValidChar := Or.inl (by omega)
    have hne : Char.ofNat (c.toNat + 32) ≠ ' ' := by
      intro hEq
      have := toNat_ofNat_of_valid (c.toNat + 32) hv
      rw [hEq] at this
      rw [show (' ' : Char).toNat = 32 from rfl] at this
      omega
    simp [toLowerChar, claimChar, hU, hne]
  · simp [toLowerChar, claimChar, hU]

/-! ### C5 -/

/-- C5: for every legacy user name, the username passed to the backend
create-user call equals the legacy name with every uppercase letter
lowercased and every space replaced by a hyphen; in particular
"Jane Doe" becomes "jane-doe". -/
theorem create_user_username_normalized :
    (∀ s : String, normalizeUsername s = claimNormalize s) ∧
    normalizeUsername "Jane Doe" = "jane-doe" := by
  constructor
  · intro s
    unfold normalizeUsername goToLower replaceAllChar claimNormalize
    congr 1
    rw [List.map_map]
    exact congrArg (fun f => List.map f s.data) (funext replace_after_lower)
  · rfl

/-! ### C3 / C4: key collection invariants -/

lemma mapInsert_fst_of_mem (m : List (String × Nat)) (k : String) (v : Nat)
    (h : (m.map Prod.fst).contains k) :
    (mapInsert m k v).map Prod.fst = m.map Prod.fst := by
  unfold mapInsert
  rw [if_pos h, List.map_map]
  apply List.map_congr_left
  intro p _
  by_cases hp : p.1 = k
  · simp [hp]
  · simp [hp]

lemma mapInsert_fst_of_not_mem (m : List (String × Nat)) (k : String) (v : Nat)
    (h : ¬ (m.map Prod.fst).contains k) :
    (mapInsert m k v).map Prod.fst = m.map Prod.fst ++ [k] := by
  unfold mapInsert
  rw [if_neg h]
  simp

lemma mapInsert_keys_nodup (m : List (String × Nat)) (k : String) (v : Nat)
    (h : (m.map Prod.fst).Nodup) :
    ((mapInsert m k v).map Prod.fst).Nodup := by
  by_cases hc : (m.map Prod.fst).contains k
  · rw [mapInsert_fst_of_mem m k v hc]
    exact h
  · rw [mapInsert_fst_of_not_mem m k v hc]
    have hk : k ∉ m.map Prod.fst := by simpa using hc
    simpa [List.nodup_append, h] using hk

lemma mapInsert_canonical (env : UserEnv) (m : List (String × Nat)) (v : Nat)
    (h : ∀ p ∈ m, p.1 = env.marshal p.2) :
    ∀ p ∈ mapInsert m (env.marshal v) v, p.1 = env.marshal p.2 := by
  intro p hp
  unfold mapInsert at hp
  by_cases hc : (m.map Prod.fst).contains (env.marshal v)
  · rw [if_pos hc] at hp
    obtain ⟨q, hq, hqe⟩ := List.mem_map.mp hp
    by_cases hqk : q.1 = env.marshal v
    · rw [if_pos hqk] at hqe
      rw [← hqe]
    · rw [if_neg hqk] at hqe
      rw [← hqe]
      exact h q hq
  · rw [if_neg hc] at hp
    rcases List.mem_append.mp hp with hm | hs
    · exact h p hm
    · simp only [List.mem_singleton] at hs
      rw [hs]

lemma mapInsert_mem_new (m : List (String × Nat)) (k : String) (v : Nat) :
    k ∈ (mapInsert m k v).map Prod.fst := by
  by_cases hc : (m.map Prod.fst).contains k
  · rw [mapInsert_fst_of_mem m k v hc]
    simpa using hc
  · rw [mapInsert_fst_of_not_mem m k v hc]
    simp

lemma mapInsert_mem_old (m : List (String × Nat)) (k k' : String) (v : Nat)
    (h : k' ∈ m.map Prod.fst) :
    k' ∈ (mapInsert m k v).map Prod.fst := by
  by_cases hc : (m.map Prod.fst).contains k
  · rw [mapInsert_fst_of_mem m k v hc]
    exact h
  · rw [mapInsert_fst_of_not_mem m k v hc]
    exact List.mem_append_left _ h

/-- The single step of the key-collection fold. -/
def collectStep (env : UserEnv) (m : List (String × Nat)) (key : String) :
    List (String × Nat) :=
  match env.parseKey key with
  | none => m
  | some pk => mapInsert m (env.marshal pk) pk

lemma collectKeys_eq_foldl (env : UserEnv) (raws : List String) :
    collectKeys env raws = raws.foldl (collectStep env) [] := by
  unfold collectKeys collectStep
  rfl

lemma collect_foldl_invariant (env : UserEnv) (raws : List String) :
    ∀ m : List (String × Nat),
      (m.map Prod.fst).Nodup →
      (∀ p ∈ m, p.1 = env.marshal p.2) →
      ((raws.foldl (collectStep env) m).map Prod.fst).Nodup ∧
      (∀ p ∈ raws.foldl (collectStep env) m, p.1 = env.marshal p.2) ∧
      (∀ k, k ∈ m.map Prod.fst →
        k ∈ (raws.foldl (collectStep env) m).map Prod.fst) ∧
      (∀ raw pk, raw ∈ raws → env.parseKey raw = some pk →
        env.marshal pk ∈ (raws.foldl (collectStep env) m).map Prod.fst) := by
  induction raws with
  | nil =>
    intro m h1 h2
    refine ⟨h1, h2, fun k hk => hk, ?_⟩
    intro raw pk hraw
    simp at hraw
  | cons r rest ih =>
    intro m h1 h2
    simp only [List.foldl_cons]
    have hstep1 : ((collectStep env m r).map Prod.fst).Nodup := by
      unfold collectStep
      cases hp : env.parseKey r with
      | none => exact h1
      | some pk => exact mapInsert_keys_nodup m _ pk h1
    have hstep2 : ∀ p ∈ collectStep env m r, p.1 = env.marshal p.2 := by
      unfold collectStep
      cases hp : env.parseKey r with
      | none => exact h2
      | some pk => exact mapInsert_canonical env m pk h2
    obtain ⟨i1, i2, i3, i4⟩ := ih (collectStep env m r) hstep1 hstep2
    refine ⟨i1, i2, ?_, ?_⟩
    · intro k hk
      apply i3
      unfold collectStep
      cases hp : env.parseKey r with
      | none => exact hk
      | some pk => exact mapInsert_mem_old m _ k pk hk
    · intro raw pk hraw hparse
      rcases List.mem_cons.mp hraw with hhead | htail
      · subst hhead
        apply i3
        unfold collectStep
        rw [hparse]
        exact mapInsert_mem_new m _ pk
      · exact i4 raw pk htail hparse

/-- C3: the key list passed to the create-user call has exactly one
entry per distinct canonical marshaled form: the marshaled forms of the
passed keys are pairwise distinct, and every successfully parsed raw
key is represented by its marshaled form. -/
theorem create_user_keys_deduplicated (env : UserEnv) (u : User) :
    (processUser env u).head? =
      some (UEvent.createUser (normalizeUsername u.name) u.admin
        (pubkeysOf env u.publicKeys)) ∧
    ((pubkeysOf env u.publicKeys).map env.marshal).Nodup ∧
    (∀ raw pk, raw ∈ u.publicKeys → env.parseKey raw = some pk →
      env.marshal pk ∈ (pubkeysOf env u.publicKeys).map env.marshal) := by
  obtain ⟨h1, h2, _h3, h4⟩ :=
    collect_foldl_invariant env u.publicKeys [] (by simp) (by simp)
  rw [← collectKeys_eq_foldl] at h1 h2 h4
  have hmm : (pubkeysOf env u.publicKeys).map env.marshal =
      (collectKeys env u.publicKeys).map Prod.fst := by
    unfold pubkeysOf
    rw [List.map_map]
    apply List.map_congr_left
    intro p hp
    exact (h2 p hp).symm
  refine ⟨?_, ?_, ?_⟩
  · simp [processUser]
  · rw [hmm]
    exact h1
  · intro raw pk hraw hparse
    rw [hmm]
    exact h4 raw pk hraw hparse

/-- Concrete key environment: three raw strings parse (two of them to
keys with the same canonical form), everything else fails to parse;
all backend calls succeed. -/
def wEnvA : UserEnv where
  parseKey s :=
    if s = "k1" then some 1
    else if s = "dup" then some 4
    else if s = "k2" then some 2
    else none
  marshal n := toString (n % 3)
  createUserErr _ := none
  addCollabErr _ _ := none

/-- Concrete legacy user whose key list contains two re-encodings of
the same key ("k1" and "dup" share the canonical form "1"). -/
def wUserA : User where
  name := "Jane Doe"
  admin := false
  publicKeys := ["k1", "dup", "k2"]
  collabRepos := []

theorem create_user_keys_deduplicated_witness :
    ((pubkeysOf wEnvA wUserA.publicKeys).map wEnvA.marshal).Nodup ∧
    wEnvA.marshal 1 ∈ (pubkeysOf wEnvA wUserA.publicKeys).map wEnvA.marshal :=
  ⟨(create_user_keys_deduplicated wEnvA wUserA).2.1,
   (create_user_keys_deduplicated wEnvA wUserA).2.2 "k1" 1
     (by simp [wUserA]) (by simp [wEnvA])⟩

/-! ### C4 -/

lemma foldl_collectStep_all_fail (env : UserEnv) :
    ∀ (raws : List String) (m : List (String × Nat)),
      (∀ raw ∈ raws, env.parseKey raw = none) →
      raws.foldl (collectStep env) m = m := by
  intro raws
  induction raws with
  | nil => intro m _; rfl
  | cons r rest ih =>
    intro m h
    simp only [List.foldl_cons]
    have hr : env.parseKey r = none := h r (List.mem_cons_self r rest)
    have hstep : collectStep env m r = m := by
      unfold collectStep
      rw [hr]
    rw [hstep]
    exact ih m (fun raw hraw => h raw (List.mem_cons_of_mem r hraw))

/-- C4: raw keys that fail to parse are skipped without error and the
create-user call is still made; a user whose every key fails to parse
is created with an empty key list. -/
theorem create_user_on_unparsable_keys (env : UserEnv) (u : User)
    (h : ∀ raw ∈ u.publicKeys, env.parseKey raw = none) :
    pubkeysOf env u.publicKeys = [] ∧
    (processUser env u).head? =
      some (UEvent.createUser (normalizeUsername u.name) u.admin []) := by
  have hempty : collectKeys env u.publicKeys = [] := by
    rw [collectKeys_eq_foldl]
    exact foldl_collectStep_all_fail env u.publicKeys [] h
  have hpub : pubkeysOf env u.publicKeys = [] := by
    unfold pubkeysOf
    rw [hempty]
    rfl
  refine ⟨hpub, ?_⟩
  simp [processUser, hpub]

/-- Concrete key environment in which no raw key string parses. -/
def wEnvB : UserEnv where
  parseKey _ := none
  marshal n := toString n
  createUserErr _ := none
  addCollabErr _ _ := none

/-- Concrete legacy user whose every key string fails to parse. -/
def wUserB : User where
  name := "Bob"
  admin := true
  publicKeys := ["not-a-key", "also bad"]
  collabRepos := ["r1"]

theorem create_user_on_unparsable_keys_witness :
    pubkeysOf wEnvB wUserB.publicKeys = [] ∧
    (processUser wEnvB wUserB).head? =
      some (UEvent.createUser (normalizeUsername wUserB.name) wUserB.admin []) :=
  create_user_on_unparsable_keys wEnvB wUserB (fun _ _ => rfl)

/-! ### C2 -/

/-- Concrete environment in which the create-user call for "jane-doe"
fails and every add-collaborator call succeeds. -/
def wEnvC : UserEnv where
  parseKey _ := none
  marshal n := toString n
  createUserErr u := if u = "jane-doe" then some "boom" else none
  addCollabErr _ _ := none

/-- Concrete legacy user with one declared collaboration. -/
def wUserC : User where
  name := "Jane Doe"
  admin := false
  publicKeys := []
  collabRepos := ["r1"]

/-- C2 counterexample: when the create-user call fails, the failure is
logged but the add-collaborator call for the user's declared repository
is still made — the full concrete trace shows the logged failure
followed by the collaborator call, refuting "no add-collaborator call
is made for that user". -/
theorem create_user_failure_skips_collabs_counterexample :
    wEnvC.createUserErr (normalizeUsername wUserC.name) = some "boom" ∧
    processUser wEnvC wUserC =
      [UEvent.createUser "jane-doe" false [],
       UEvent.createUserFailed "boom",
       UEvent.addCollab "r1" "jane-doe"] :=
  ⟨rfl, rfl⟩

/-- C2 amended: when the backend create-user call for a legacy user
fails, the failure is logged, and the user's declared repository
collaborations are still attempted — an add-collaborator call is made
for every declared repo. -/
theorem create_user_failure_still_adds_collabs (env : UserEnv) (u : User)
    (e : String)
    (h : env.createUserErr (normalizeUsername u.name) = some e) :
    UEvent.createUserFailed e ∈ processUser env u ∧
    ∀ repo ∈ u.collabRepos,
      UEvent.addCollab repo (normalizeUsername u.name) ∈ processUser env u := by
  constructor
  · simp [processUser, h]
  · intro repo hrepo
    simp only [processUser]
    apply List.mem_append_right
    rw [List.mem_flatMap]
    exact ⟨repo, hrepo, List.mem_append_left _ (List.mem_singleton_self _)⟩

theorem create_user_failure_still_adds_collabs_witness :
    UEvent.createUserFailed "boom" ∈ processUser wEnvC wUserC ∧
    ∀ repo ∈ wUserC.collabRepos,
      UEvent.addCollab repo (normalizeUsername wUserC.name) ∈
        processUser wEnvC wUserC :=
  create_user_failure_still_adds_collabs wEnvC wUserC "boom" rfl

/-! ### C1 -/

lemma importRepos_append_error (env : RepoEnv) (l1 l2 : List DirEntry) :
    ∀ (evs : List REvent) (e : String),
      importRepos env l1 = .ok evs → importRepos env l2 = .error e →
      importRepos env (l1 ++ l2) = .error e := by
  induction l1 with
  | nil =>
    intro evs e _ h2
    simpa using h2
  | cons d rest ih =>
    intro evs e h1 h2
    simp only [importRepos] at h1
    cases hd : importRepo env d with
    | error e1 =>
      rw [hd] at h1
      cases h1
    | ok evs1 =>
      rw [hd] at h1
      cases hr : importRepos env rest with
      | error e1 =>
        rw [hr] at h1
        cases h1
      | ok evs2 =>
        have htail := ih evs2 e hr h2
        simp only [List.cons_append, importRepos, hd]
        have happ : rest.append l2 = rest ++ l2 := rfl
        rw [happ, htail]

/-- Concrete repo-copy environment: every entry looks like a git
directory, the destination directory is created, copying "repo-a"
fails with a permission error, every other copy and every backend
registration succeeds. -/
def wRepoEnv : RepoEnv where
  isGitDirAt _ := true
  mkdirOk := true
  copyErr n := if n = "repo-a" then some "permission denied" else none
  createRepoErr _ := none

/-- C1 counterexample: with two repository directories where copying
the first fails, the loop returns the copy error — the second
directory is never reached (no event for it is produced), refuting
"the copy failure does not abort the whole import". -/
theorem repo_copy_failure_continues_counterexample :
    importRepos wRepoEnv [⟨"repo-a", true⟩, ⟨"repo-b", true⟩] =
      .error "failed to copy repo: permission denied" :=
  rfl

/-- C1 amended: in the repo-copy loop, a tree-copy failure for one
repository directory aborts the whole import (and the migration run):
the loop returns the wrapped copy error and no later directory entry
is processed; only a backend create-repository failure is merely
logged. -/
theorem repo_copy_failure_aborts (env : RepoEnv) (pre : List DirEntry)
    (d : DirEntry) (rest : List DirEntry) (evs : List REvent) (e : String)
    (hpre : importRepos env pre = .ok evs)
    (hdir : d.isDir = true) (hgit : env.isGitDirAt d.name = true)
    (hmk : env.mkdirOk = true) (hcopy : env.copyErr d.name = some e) :
    importRepos env (pre ++ d :: rest) =
      .error ("failed to copy repo: " ++ e) := by
  have hstep : importRepo env d = .error ("failed to copy repo: " ++ e) := by
    unfold importRepo
    rw [hdir, hgit, hmk, hcopy]
    simp
  have htail : importRepos env (d :: rest) =
      .error ("failed to copy repo: " ++ e) := by
    simp only [importRepos, hstep]
  exact importRepos_append_error env pre (d :: rest) evs _ hpre htail

theorem repo_copy_failure_aborts_witness :
    importRepos wRepoEnv
        ([⟨"repo-0", true⟩] ++ DirEntry.mk "repo-a" true :: [⟨"repo-b", true⟩]) =
      .error ("failed to copy repo: " ++ "permission denied") :=
  repo_copy_failure_aborts wRepoEnv [⟨"repo-0", true⟩] ⟨"repo-a", true⟩
    [⟨"repo-b", true⟩] [REvent.copying "repo-0", REvent.createRepoCall "repo-0"]
    "permission denied" rfl rfl rfl rfl rfl

/-! ### C6 -/

/-- C6: the config reader checks `config.yaml` first and falls back to
`config.json` only when the YAML entry is absent: a present YAML entry
is selected (and its contents decoded with the YAML decoder) whatever
the JSON entry; a present JSON entry is selected only when YAML is
absent; the selection fails exactly when neither entry exists. -/
theorem config_reader_yaml_first (t : LTree) :
    (∀ te, t.treeEntry "config.yaml" = some te →
      findConfigEntry t = .ok (te, false)) ∧
    (∀ te, t.treeEntry "config.yaml" = none →
      t.treeEntry "config.json" = some te →
      findConfigEntry t = .ok (te, true)) ∧
    ((∃ e, findConfigEntry t = .error e) ↔
      t.treeEntry "config.yaml" = none ∧ t.treeEntry "config.json" = none) ∧
    (∀ te cc c yamlDec jsonDec,
      t.treeEntry "config.yaml" = some te → te.contents = some cc →
      yamlDec cc = some c →
      readLegacyConfig yamlDec jsonDec t = .ok c) := by
  refine ⟨?_, ?_, ?_, ?_⟩
  · intro te hy
    unfold findConfigEntry
    rw [hy]
  · intro te hy hj
    unfold findConfigEntry
    rw [hy, hj]
  · constructor
    · rintro ⟨e, he⟩
      unfold findConfigEntry at he
      cases hy : t.treeEntry "config.yaml" with
      | some te =>
        rw [hy] at he
        cases he
      | none =>
        rw [hy] at he
        cases hj : t.treeEntry "config.json" with
        | some te =>
          rw [hj] at he
          cases he
        | none => exact ⟨rfl, rfl⟩
    · rintro ⟨hy, hj⟩
      refine ⟨"failed to get config file", ?_⟩
      unfold findConfigEntry
      rw [hy, hj]
  · intro te cc c yamlDec jsonDec hy hcc hdec
    unfold readLegacyConfig findConfigEntry
    rw [hy]
    simp [hcc, hdec]

/-- Concrete head tree holding both a YAML and a JSON config entry. -/
def wTree : LTree where
  treeEntry name :=
    if name = "config.yaml" then some ⟨some "yaml-bytes"⟩
    else if name = "config.json" then some ⟨some "json-bytes"⟩
    else none

/-- Concrete decoded legacy configuration. -/
def wConfig : Config where
  name := "srv"
  host := "example.com"
  port := 2222
  anonAccess := "admin-access"
  allowKeyless := true
  users := []
  repos := []

/-- Concrete YAML decoder succeeding exactly on the YAML entry body. -/
def wYamlDec (cc : String) : Option Config :=
  if cc = "yaml-bytes" then some wConfig else none

/-- Concrete JSON decoder (never consulted in the witness). -/
def wJsonDec (_ : String) : Option Config := none

theorem config_reader_yaml_first_witness :
    findConfigEntry wTree = .ok (⟨some "yaml-bytes"⟩, false) ∧
    readLegacyConfig wYamlDec wJsonDec wTree = .ok wConfig :=
  ⟨(config_reader_yaml_first wTree).1 ⟨some "yaml-bytes"⟩ rfl,
   (config_reader_yaml_first wTree).2.2.2 ⟨some "yaml-bytes"⟩ "yaml-bytes"
     wConfig wYamlDec wJsonDec rfl rfl rfl⟩

/-! ### C7 -/

/-- C7: `isGitDir` returns true iff the path's `objects` entry stats as
a directory and its `HEAD` entry stats as a non-directory; the result
depends on nothing but those two stat results. -/
theorem isGitDir_characterization (fs : StatFS) (path : String) :
    (isGitDir fs path = true ↔
      fs.stat (path ++ "/objects") = some true ∧
      fs.stat (path ++ "/HEAD") = some false) ∧
    (∀ fs2 : StatFS,
      fs2.stat (path ++ "/objects") = fs.stat (path ++ "/objects") →
      fs2.stat (path ++ "/HEAD") = fs.stat (path ++ "/HEAD") →
      isGitDir fs2 path = isGitDir fs path) := by
  constructor
  · unfold isGitDir
    cases ho : fs.stat (path ++ "/objects") with
    | none => simp
    | some b1 =>
      cases b1 with
      | false => simp
      | true =>
        cases hh : fs.stat (path ++ "/HEAD") with
        | none => simp
        | some b2 => cases b2 <;> simp
  · intro fs2 h1 h2
    unfold isGitDir
    rw [h1, h2]

/-- Concrete filesystem with a well-shaped bare repository at "repo". -/
def wFS : StatFS where
  stat p :=
    if p = "repo/objects" then some true
    else if p = "repo/HEAD" then some false
    else none

theorem isGitDir_characterization_witness :
    isGitDir wFS "repo" = true :=
  ((isGitDir_characterization wFS "repo").1).mpr ⟨rfl, rfl⟩

/-! ### C10 -/

/-- C10: when the legacy anon-access string does not parse to a
non-negative level, the set-anon-access call is never issued and no
failure is logged for it — the settings trace is exactly the
allow-keyless part; and a set-anon-access call appears in the trace
only when the string parses to a non-negative level (and then at that
level). -/
theorem anon_access_guard (env : SettingsEnv) (s : String) :
    (ParseAccessLevel s < 0 →
      serverSettings env s =
        (if env.setAllowKeylessOk = false
         then [SEvent.allowKeylessFailed] else [])) ∧
    (∀ lvl, SEvent.setAnonAccessCall lvl ∈ serverSettings env s →
      0 ≤ ParseAccessLevel s ∧ lvl = ParseAccessLevel s) := by
  constructor
  · intro hneg
    unfold serverSettings
    rw [if_neg (by omega : ¬ 0 ≤ ParseAccessLevel s)]
    simp
  · intro lvl hmem
    unfold serverSettings at hmem
    by_cases hpos : 0 ≤ ParseAccessLevel s
    · rw [if_pos hpos] at hmem
      refine ⟨hpos, ?_⟩
      rcases List.mem_append.mp hmem with hk | ha
      · by_cases hak : env.setAllowKeylessOk = false
        · rw [if_pos hak] at hk
          simp at hk
        · rw [if_neg hak] at hk
          simp at hk
      · rcases List.mem_cons.mp ha with he | htail
        · exact (SEvent.setAnonAccessCall.injEq _ _).mp he.symm ▸ rfl
        · exfalso
          cases herr : env.setAnonAccessErr (ParseAccessLevel s) with
          | some e =>
            rw [herr] at htail
            simp at htail
          | none =>
            rw [herr] at htail
            simp at htail
    · rw [if_neg hpos] at hmem
      rw [List.append_nil] at hmem
      exfalso
      by_cases hak : env.setAllowKeylessOk = false
      · rw [if_pos hak] at hmem
        simp at hmem
      · rw [if_neg hak] at hmem
        simp at hmem

/-- Concrete settings environment where every call succeeds. -/
def wSettingsEnv : SettingsEnv where
  setAllowKeylessOk := true
  setAnonAccessErr _ := none

theorem anon_access_guard_witness :
    serverSettings wSettingsEnv "bogus" =
      (if wSettingsEnv.setAllowKeylessOk = false
       then [SEvent.allowKeylessFailed] else []) :=
  (anon_access_guard wSettingsEnv "bogus").1 (by decide)

/-! ### C8 -/

lemma copyEntries_append (l1 l2 : List (String × FNode)) :
    copyEntries (l1 ++ l2) = copyEntries l1 ++ copyEntries l2 := by
  induction l1 with
  | nil => simp [copyEntries]
  | cons p rest ih =>
    obtain ⟨n, c⟩ := p
    simp only [List.cons_append, copyEntries, ih, List.append_assoc]

/-- C8: the tree copier errors exactly when its top-level stat,
destination directory creation, or top-level listing fails; a failing
child — file or subdirectory — only contributes a printed line while
the remaining siblings are still walked and the copier returns
success. -/
theorem copyDir_error_policy :
    (∀ (statOk mkdirOk readOk : Bool) (children : List (String × FNode)),
      (∃ e, copyDir (.dir statOk mkdirOk readOk children) = .error e) ↔
        ¬(statOk = true ∧ mkdirOk = true ∧ readOk = true)) ∧
    (∀ (pre : List (String × FNode)) (n : String)
        (rest : List (String × FNode)),
      copyDir (.dir true true true (pre ++ (n, FNode.file false) :: rest)) =
        .ok (copyEntries pre ++
          ("failed to copy file " ++ n) :: copyEntries rest)) ∧
    (∀ (pre : List (String × FNode)) (n : String) (mk rd : Bool)
        (cs rest : List (String × FNode)),
      copyDir
          (.dir true true true (pre ++ (n, FNode.dir false mk rd cs) :: rest)) =
        .ok (copyEntries pre ++ "stat failed" :: copyEntries rest)) := by
  refine ⟨?_, ?_, ?_⟩
  · intro statOk mkdirOk readOk children
    cases statOk <;> cases mkdirOk <;> cases readOk <;> simp [copyDir]
  · intro pre n rest
    simp [copyDir, copyEntries_append, copyEntries, copyEntry]
  · intro pre n mk rd cs rest
    simp [copyDir, copyEntries_append, copyEntries, copyEntry]

theorem copyDir_error_policy_witness :
    ∃ e, copyDir (.dir false true true []) = .error e :=
  (copyDir_error_policy.1 false true true []).mpr (by simp)

/-! ### C9 -/

lemma natChars_eq_specDigits (n : Nat) : natChars n = specDigits n := by
  induction n using Nat.strong_induction_on with
  | _ n ih =>
    rw [natChars]
    by_cases h : n < 10
    · rw [if_pos h]
      unfold specDigits
      by_cases h0 : n = 0
      · subst h0
        rfl
      · rw [if_neg h0]
        rw [Nat.digits_def' (by norm_num : (1:ℕ) < 10) (Nat.pos_of_ne_zero h0)]
        rw [Nat.div_eq_of_lt h]
        simp [Nat.mod_eq_of_lt h]
    · rw [if_neg h]
      rw [ih (n / 10) (Nat.div_lt_self (by omega) (by omega))]
      unfold specDigits
      have h0 : ¬ n = 0 := by omega
      have h10 : ¬ n / 10 = 0 := by
        intro hq
        exact h (Nat.div_eq_zero_iff (by omega) |>.mp hq)
      rw [if_neg h0, if_neg h10]
      rw [Nat.digits_def' (by norm_num : (1:ℕ) < 10) (Nat.pos_of_ne_zero h0)]
      simp

lemma intChars_eq_specDecimal_data (i : Int) :
    intChars i = (specDecimal i).data := by
  unfold intChars specDecimal
  by_cases h : i < 0
  · rw [if_pos h, if_pos h]
    show '-' :: natChars i.natAbs = '-' :: specDigits i.natAbs
    rw [natChars_eq_specDigits]
  · rw [if_neg h, if_neg h]
    show natChars i.toNat = specDigits i.toNat
    rw [natChars_eq_specDigits]

/-- C9: the stored public SSH URL is the literal scheme, the host, a
colon and the decimal rendering of the port; host "example.com" with
port 2222 yields "ssh://example.com:2222". -/
theorem public_url_format :
    (∀ (host : String) (port : Int),
      publicURL host port = "ssh://" ++ host ++ ":" ++ specDecimal port) ∧
    publicURL "example.com" 2222 = "ssh://example.com:2222" := by
  have hgen : ∀ (host : String) (port : Int),
      publicURL host port = "ssh://" ++ host ++ ":" ++ specDecimal port := by
    intro host port
    unfold publicURL goSprintf
    apply String.ext
    show sprintfChars ("ssh://%s:%d".data) [GoArg.s host, GoArg.d port] =
      ("ssh://" ++ host ++ ":" ++ specDecimal port).data
    have hfmt : ("ssh://%s:%d".data) =
        ['s','s','h',':','/','/','%','s',':','%','d'] := rfl
    rw [hfmt]
    simp only [sprintfChars, intChars_eq_specDecimal_data]
    show 's' :: 's' :: 'h' :: ':' :: '/' :: '/' ::
        (host.data ++ ':' :: ((specDecimal port).data ++ [])) = _
    simp [String.data_append]
  refine ⟨hgen, ?_⟩
  rw [hgen]
  have h2222 : specDecimal 2222 = "2222" := by
    rw [show specDecimal 2222 = ⟨natChars 2222⟩ from
      congrArg String.mk (natChars_eq_specDigits 2222).symm]
    simp [natChars]
  rw [h2222]
  rfl

end MigrateConfig
